import Mathlib

/-!
Shallow embedding of the raygun4go error-reporting client
(stack2struct.go, raygun4go.go, request_data.go, utils.go).

Go strings are modelled as Lean `String`; Go slices as `List`; Go maps
`map[string][]string` as association lists preserving iteration order;
fallible operations (runtime panics such as out-of-range slice indexing
or a failed type assertion) return `Except`.  External collaborators
(UUID generation, wall-clock time, hostname lookup, JSON serialization,
the HTTP transport) are passed in as explicit parameters, as the spec
treats them as external interfaces.
-/

namespace Raygun4go

/-! ### Go string primitives used by the source

All separators used by the source (`"\n"`, `"/"`, `"."`, `" "`, `":"`)
are single characters, so `strings.Split` is embedded as a split on a
single separator character, and `strings.Join` as `joinSep`. -/

/-- Embedding of Go `strings.Split(s, sep)` on the character list of `s`,
for a single-character separator.  Never returns the empty list. -/
def splitCharAux (sep : Char) : List Char → List (List Char)
  | [] => [[]]
  | c :: rest =>
      let groups := splitCharAux sep rest
      if c = sep then [] :: groups
      else
        match groups with
        | [] => [[c]]
        | g :: gs => (c :: g) :: gs

/-- Go `strings.Split(s, string(sep))` for a one-character separator. -/
def goSplit (s : String) (sep : Char) : List String :=
  (splitCharAux sep s.data).map String.mk

/-- Go `strings.Join(parts, sep)`. -/
def joinSep (sep : String) : List String → String
  | [] => ""
  | [s] => s
  | s :: rest => s ++ sep ++ joinSep sep rest

/-- Go `strconv.ParseUint(s, 10, 32)` with the error ignored, as the
source does: on a syntax error (empty string or any non-digit) the
returned value is 0, on a range error it is the maximal 32-bit value. -/
def parseUint32 (s : String) : Nat :=
  if s.length ≠ 0 ∧ s.data.all Char.isDigit then
    min (s.data.foldl (fun n c => n * 10 + (c.toNat - 48)) 0) (2 ^ 32 - 1)
  else 0

/-! ### stack2struct.go -/

/-- One element of the parsed stack trace (request_data.go,
`StackTraceElement`). -/
structure StackTraceElement where
  lineNumber : Nat
  packageName : String
  fileName : String
  methodName : String
deriving DecidableEq, Repr

/-- The stack a trace is parsed into (request_data.go, `StackTrace`);
its `AddEntry` appends one element. -/
abbrev StackTrace := List StackTraceElement

/-- stack2struct.go `splitAtLastSlash`: split at the last slash and
return the parts left and right of it. -/
def splitAtLastSlash (line : String) : String × String :=
  let parts := goSplit line '/'
  (joinSep "/" parts.dropLast, parts.getLastD "")

/-- stack2struct.go `extractPackageName`: extract packageName and
methodName from a symbol line. -/
def extractPackageName (line : String) : String × String :=
  let pr := splitAtLastSlash line
  let packagePath := pr.1
  let parts := goSplit pr.2 '.'
  if parts.length > 1 then
    let p0 := parts.headD ""
    let packageName := if packagePath.length > 0 then packagePath ++ "/" ++ p0 else p0
    (packageName, joinSep "." parts.tail)
  else
    ("", parts.headD "")

/-- stack2struct.go `removeSpaceAndSuffix`: cut off the part after the
last space, if any. -/
def removeSpaceAndSuffix (line : String) : String :=
  let parts := goSplit line ' '
  if parts.length ≤ 1 then line
  else joinSep " " parts.dropLast

/-- stack2struct.go `extractLineNumberAndFile`: extract lineNumber and
fileName from a location line. -/
def extractLineNumberAndFile (line : String) : Nat × String :=
  let fileAndLine := removeSpaceAndSuffix (splitAtLastSlash line).2
  let parts := goSplit fileAndLine ':'
  let lineNumber := if parts.length ≥ 2 then parseUint32 (parts.getD 1 "") else 0
  (lineNumber, parts.headD "")

/-- The loop body of stack2struct.go `Parse`: iterate over the lines
after the header with their index; skip empty lines; at an even index
extract package and method name into the loop variables, at an odd
index extract line number and file and append one entry to the stack
(`stack.AddEntry`). -/
def parseLoop : List String → Nat → String → String → StackTrace → StackTrace
  | [], _, _, _, stack => stack
  | line :: rest, index, packageName, methodName, stack =>
      if line.length = 0 then
        parseLoop rest (index + 1) packageName methodName stack
      else if index % 2 = 0 then
        let pm := extractPackageName line
        parseLoop rest (index + 1) pm.1 pm.2 stack
      else
        let lf := extractLineNumberAndFile line
        parseLoop rest (index + 1) packageName methodName
          (stack ++ [⟨lf.1, packageName, lf.2, methodName⟩])

/-- stack2struct.go `Parse`: split the trace at newlines, drop the
header line, and run the loop, appending entries to the given stack. -/
def Parse (trace : String) (stack : StackTrace) : StackTrace :=
  parseLoop ((goSplit trace '\n').drop 1) 0 "" "" stack

/-- Parsing a trace into an initially empty stack. -/
def parseTrace (trace : String) : StackTrace :=
  Parse trace []

/-- The lines occupied by a list of symbol/location line pairs. -/
def pairLines (pairs : List (String × String)) : List String :=
  (pairs.map fun pr => [pr.1, pr.2]).flatten

/-- The stack entry `Parse` emits for one symbol/location line pair. -/
def frameOfPair (pr : String × String) : StackTraceElement :=
  { lineNumber := (extractLineNumberAndFile pr.2).1
    packageName := (extractPackageName pr.1).1
    fileName := (extractLineNumberAndFile pr.2).2
    methodName := (extractPackageName pr.1).2 }

/-! ### Data model (raygun4go.go, request_data.go) -/

/-- A Go `error` value, identified by its message (`errors.New`). -/
structure GoError where
  message : String
deriving DecidableEq, Repr

/-- Opaque model of a Go `interface` value used for `CustomData`:
either the nil interface or some opaque serializable datum. -/
inductive GoAny where
  | null
  | val (tag : String)
deriving DecidableEq, Repr

/-- The fields of a Go `*http.Request` that request_data.go reads:
`Host`, `URL.String()`, `Method`, `RemoteAddr`, `URL.Query()`,
`PostForm` (after `ParseForm`), and `Header`.  The three maps are
association lists in iteration order. -/
structure GoHttpRequest where
  Host : String
  URLString : String
  Method : String
  RemoteAddr : String
  Query : List (String × List String)
  PostForm : List (String × List String)
  Header : List (String × List String)
deriving DecidableEq, Repr

/-- utils.go `arrayMapToStringMap`: joins each value slice into one
display string.  The unguarded `v[0]` panics (modelled as `Except.error`)
when a value slice is empty; Go panics at the first such entry in
iteration order, which in this model is list order. -/
def arrayMapToStringMap : List (String × List String) → Except String (List (String × String))
  | [] => .ok []
  | (k, v) :: rest => do
      let entry ←
        if v.length > 1 then
          pure ("[" ++ joinSep "; " v ++ "]")
        else
          match v with
          | [] => Except.error "runtime error: index out of range"
          | x :: _ => pure x
      let restEntries ← arrayMapToStringMap rest
      pure ((k, entry) :: restEntries)

/-- request_data.go `RequestData`. -/
structure RequestData where
  HostName : String
  URL : String
  HTTPMethod : String
  IPAddress : String
  QueryString : List (String × String)
  Form : List (String × String)
  Headers : List (String × String)
deriving DecidableEq, Repr

/-- The zero value `RequestData` returned when no request was set. -/
def emptyRequestData : RequestData :=
  { HostName := "", URL := "", HTTPMethod := "", IPAddress := ""
    QueryString := [], Form := [], Headers := [] }

/-- request_data.go `newRequestData`: empty struct for a nil request,
otherwise the flattened projection of the request; any panic inside
`arrayMapToStringMap` propagates. -/
def newRequestData : Option GoHttpRequest → Except String RequestData
  | none => .ok emptyRequestData
  | some r => do
      let q ← arrayMapToStringMap r.Query
      let f ← arrayMapToStringMap r.PostForm
      let h ← arrayMapToStringMap r.Header
      pure { HostName := r.Host, URL := r.URLString, HTTPMethod := r.Method,
             IPAddress := r.RemoteAddr, QueryString := q, Form := f, Headers := h }

/-- request_data.go `ErrorData`. -/
structure ErrorData where
  Message : String
  StackTrace : StackTrace
deriving DecidableEq, Repr

/-- request_data.go `User`. -/
structure User where
  Identifier : String
deriving DecidableEq, Repr

/-- request_data.go `Context`. -/
structure Context where
  Identifier : String
deriving DecidableEq, Repr

/-- request_data.go `ClientData`. -/
structure ClientData where
  Name : String
  Version : String
  ClientURL : String
deriving DecidableEq, Repr

/-- Modelled from the spec: the library version constant
`packageVersion` lives in a source file not present here; the spec only
requires the client identity to be a fixed triple of name, library
version and homepage URL, so its concrete value is an arbitrary fixed
string. -/
def packageVersion : String := "library-version"

/-- request_data.go `DetailsData`; `GroupingKey` is a nullable pointer,
modelled as `Option`. -/
structure DetailsData where
  MachineName : String
  Version : String
  Error : ErrorData
  Tags : List String
  UserCustomData : GoAny
  Request : RequestData
  User : User
  Context : Context
  Client : ClientData
  GroupingKey : Option String
deriving DecidableEq, Repr

/-- request_data.go `PostData`. -/
structure PostData where
  OccuredOn : String
  Details : DetailsData
deriving DecidableEq, Repr

/-- raygun4go.go `contextInformation`.  `GetCustomGroupingKey` is a
nilable function value, `identifier` the process-unique id set by
`New`. -/
structure ContextInformation where
  Request : Option GoHttpRequest
  Version : String
  Tags : List String
  CustomData : GoAny
  User : String
  GetCustomGroupingKey : Option (GoError → PostData → String)
  identifier : String

/-- raygun4go.go `Client`. -/
structure Client where
  appName : String
  apiKey : String
  context : ContextInformation
  silent : Bool
  logToStdOut : Bool
  asynchronous : Bool

/-- request_data.go `newDetailsData`.  The hostname lookup is external:
its result (`os.Hostname`) is a parameter, with the literal
`"not available"` fallback on failure. -/
def newDetailsData (c : ContextInformation) (err : GoError) (stack : StackTrace)
    (hostRes : Except String String) : Except String DetailsData := do
  let hostname := match hostRes with
    | .error _ => "not available"
    | .ok h => h
  let req ← newRequestData c.Request
  pure { MachineName := hostname
         Version := c.Version
         Error := { Message := err.message, StackTrace := stack }
         Tags := c.Tags
         UserCustomData := c.CustomData
         Request := req
         User := { Identifier := c.User }
         Context := { Identifier := c.identifier }
         Client := { Name := "raygun4go", Version := packageVersion,
                     ClientURL := "https://github.com/MindscapeHQ/raygun4go" }
         GroupingKey := none }

/-- request_data.go `newPostData`.  The formatted UTC timestamp
(`time.Now().UTC().Format(...)`) is external and passed as `now`. -/
def newPostData (context : ContextInformation) (err : GoError) (stack : StackTrace)
    (now : String) (hostRes : Except String String) : Except String PostData := do
  let details ← newDetailsData context err stack hostRes
  pure { OccuredOn := now, Details := details }

/-! ### Client facade (raygun4go.go) -/

/-- raygun4go.go `New`: build the context with a freshly generated
identifier (the external UUID generator's output is the parameter
`freshUuid`), fail when either appName or apiKey is empty, otherwise
return the Client with all flags false. -/
def New (appName apiKey : String) (freshUuid : String) : Except String Client :=
  let context : ContextInformation :=
    { Request := none, Version := "", Tags := [], CustomData := GoAny.null,
      User := "", GetCustomGroupingKey := none, identifier := freshUuid }
  if appName = "" ∨ apiKey = "" then
    .error "appName and apiKey are required"
  else
    .ok { appName := appName, apiKey := apiKey, context := context,
          silent := false, logToStdOut := false, asynchronous := false }

/-- raygun4go.go `Clone`: field-by-field copy of the context and the
client into a freshly allocated Client value. -/
def Clone (c : Client) : Client :=
  let contextInfoClone : ContextInformation :=
    { Request := c.context.Request
      Version := c.context.Version
      Tags := c.context.Tags
      CustomData := c.context.CustomData
      User := c.context.User
      GetCustomGroupingKey := c.context.GetCustomGroupingKey
      identifier := c.context.identifier }
  { appName := c.appName
    apiKey := c.apiKey
    context := contextInfoClone
    silent := c.silent
    logToStdOut := c.logToStdOut
    asynchronous := c.asynchronous }

/-- The chainable configuration methods of the Client (raygun4go.go
`Silent`, `LogToStdOut`, `Asynchronous`, `Request`, `Version`, `Tags`,
`CustomData`, `User`, `CustomGroupingKeyFunction`), as one inductive of
setter invocations with their arguments. -/
inductive Setter where
  | setSilent (s : Bool)
  | setLogToStdOut (l : Bool)
  | setAsynchronous (a : Bool)
  | setRequest (r : Option GoHttpRequest)
  | setVersion (v : String)
  | setTags (tags : List String)
  | setCustomData (data : GoAny)
  | setUser (u : String)
  | setCustomGroupingKeyFunction (f : Option (GoError → PostData → String))

/-- The effect of each chainable setter on the Client struct: each one
assigns exactly the field its Go counterpart assigns (the Go methods
mutate the receiver in place and return it; the heap model below
supplies the in-place part). -/
def applySetter : Setter → Client → Client
  | .setSilent s, c => { c with silent := s }
  | .setLogToStdOut l, c => { c with logToStdOut := l }
  | .setAsynchronous a, c => { c with asynchronous := a }
  | .setRequest r, c => { c with context := { c.context with Request := r } }
  | .setVersion v, c => { c with context := { c.context with Version := v } }
  | .setTags tags, c => { c with context := { c.context with Tags := tags } }
  | .setCustomData data, c => { c with context := { c.context with CustomData := data } }
  | .setUser u, c => { c with context := { c.context with User := u } }
  | .setCustomGroupingKeyFunction f, c =>
      { c with context := { c.context with GetCustomGroupingKey := f } }

/-- A placeholder Client used only as the default of out-of-range heap
lookups in the heap model below. -/
def clientDefault : Client :=
  { appName := "", apiKey := ""
    context := { Request := none, Version := "", Tags := [], CustomData := GoAny.null,
                 User := "", GetCustomGroupingKey := none, identifier := "" }
    silent := false, logToStdOut := false, asynchronous := false }

/-- Heap model of Go pointer semantics for Clients: a heap is a list of
Client structs, an address an index into it.  `cloneOp` models
`clone := c.Clone()`: the composite literal in `Clone` allocates a new
struct, so the result lives at a fresh address (the old length), the
original untouched. -/
def cloneOp (heap : List Client) (a : Nat) : List Client × Nat :=
  (heap ++ [Clone (heap.getD a clientDefault)], heap.length)

/-- Heap model of invoking a chainable setter on the Client at address
`a`: the Go methods assign through the receiver pointer, so the struct
at `a` is replaced by the updated one. -/
def setterOp (heap : List Client) (a : Nat) (s : Setter) : List Client :=
  heap.set a (applySetter s (heap.getD a clientDefault))

/-- raygun4go.go `createPost`: assemble the payload, then, when a
grouping-key callback is configured, invoke it with the error and the
assembled payload and inject a non-empty result into
`Details.GroupingKey`. -/
def createPost (c : Client) (err : GoError) (stack : StackTrace)
    (now : String) (hostRes : Except String String) : Except String PostData := do
  let postData ← newPostData c.context err stack now hostRes
  match c.context.GetCustomGroupingKey with
  | none => pure postData
  | some getKey =>
      let customGroupingKey := getKey err postData
      if customGroupingKey ≠ "" then
        pure { postData with Details := { postData.Details with GroupingKey := some customGroupingKey } }
      else
        pure postData

/-- Go slice expression `s[n:]` for a slice built by repeatedly
appending single elements to an empty slice, as the stacks here are:
for such slices the capacity never exceeds 3 before the length does
(capacity growth 0, 1, 2, 4, ...), so `s[3:]` panics exactly when the
length is below 3. -/
def goSliceFrom (s : StackTrace) (n : Nat) : Except String StackTrace :=
  if n ≤ s.length then .ok (s.drop n)
  else .error "runtime error: slice bounds out of range"

/-- request_data.go `currentStack`: parse the raw runtime stack text
(external input `raw`, what `runtime.Stack` wrote) into an empty stack
and return it with the first 3 entries removed by the unguarded slice
`s[3:]`. -/
def currentStack (raw : String) : Except String StackTrace :=
  goSliceFrom (parseTrace raw) 3

/-! ### Delivery engine (raygun4go.go) -/

/-- The HTTP request `submitCore` builds. -/
structure HttpRequest where
  method : String
  url : String
  headers : List (String × String)
  body : String
deriving DecidableEq, Repr

/-- The outcome of one invocation of the external HTTP transport
(`httpClient.Do`): a response with a status code, or a transport
failure. -/
inductive TransportResult where
  | response (statusCode : Nat)
  | failure (msg : String)
deriving DecidableEq, Repr

/-- The REST endpoint variable `raygunEndpoint`. -/
def raygunEndpoint : String := "https://api.raygun.com"

/-- Observable effect of one `Submit` call: the returned error (`none`
is Go `nil`, success), the transport invocations performed
synchronously by this call, whether a goroutine running `submitCore`
was spawned, and what was printed in silent mode. -/
structure SubmitEffect where
  err : Option String
  networkCalls : List HttpRequest
  spawned : Bool
  printed : Option String
deriving DecidableEq, Repr

/-- raygun4go.go `submitCore`: marshal the payload (the external JSON
encoder is the parameter `marshal`; a failure becomes a descriptive
error), POST it to `raygunEndpoint ++ "/entries"` with the `X-ApiKey`
header via the external transport, succeed exactly on status 202 and
otherwise report the status.  `http.NewRequest` with the constant
method and URL cannot fail and is modelled as always succeeding. -/
def submitCore (c : Client) (post : PostData)
    (marshal : PostData → Except String String)
    (transport : HttpRequest → TransportResult) : SubmitEffect :=
  match marshal post with
  | .error e =>
      { err := some ("Unable to convert to JSON (" ++ e ++ ")"),
        networkCalls := [], spawned := false, printed := none }
  | .ok body =>
      let r : HttpRequest :=
        { method := "POST", url := raygunEndpoint ++ "/entries",
          headers := [("X-ApiKey", c.apiKey)], body := body }
      match transport r with
      | .failure msg =>
          { err := some ("Failed to request (" ++ msg ++ ")"),
            networkCalls := [r], spawned := false, printed := none }
      | .response statusCode =>
          if statusCode = 202 then
            { err := none, networkCalls := [r], spawned := false, printed := none }
          else
            { err := some ("Unexpected answer from Raygun " ++ toString statusCode),
              networkCalls := [r], spawned := false, printed := none }

/-- raygun4go.go `Submit`: in silent mode pretty-print the payload
(external `json.MarshalIndent` is `marshalIndent`, its error ignored)
and return nil without touching the network; in asynchronous mode spawn
`go submitCore` and return nil at once; otherwise run `submitCore`
synchronously. -/
def Submit (c : Client) (post : PostData)
    (marshalIndent : PostData → String)
    (marshal : PostData → Except String String)
    (transport : HttpRequest → TransportResult) : SubmitEffect :=
  if c.silent then
    { err := none, networkCalls := [], spawned := false,
      printed := some (marshalIndent post) }
  else if c.asynchronous then
    { err := none, networkCalls := [], spawned := true, printed := none }
  else
    submitCore c post marshal transport

/-! ### HandleError (raygun4go.go) -/

/-- The value handed back by `recover()`: nil when no panic is in
flight, otherwise the panic payload — a value implementing `error`, a
string, or a value of any other dynamic type (e.g. an int). -/
inductive RecoveredValue where
  | goError (e : GoError)
  | goString (s : String)
  | other (typeDescription : String)
deriving DecidableEq, Repr

/-- The conversion step at the top of `HandleError`:
`err, ok := e.(error)` followed by the unchecked type assertion
`err = errors.New(e.(string))` in the `!ok` branch.  The assertion
itself panics (modelled as `Except.error`) when the payload is neither
an error nor a string. -/
def recoveredToError : RecoveredValue → Except String GoError
  | .goError e => .ok e
  | .goString s => .ok ⟨s⟩
  | .other d => .error ("interface conversion: interface is " ++ d ++ ", not string")

/-- raygun4go.go `HandleError`: return nil when no panic was recovered;
otherwise convert the payload to an error, capture and trim the current
stack, assemble the payload and submit it, returning the submission
outcome.  Any panic raised on the way (the failed string assertion, or
the slice in `currentStack`) escapes as `Except.error` — in Go it
propagates out of the deferred call and crashes the host program. -/
def HandleError (c : Client) (recovered : Option RecoveredValue) (raw : String)
    (now : String) (hostRes : Except String String)
    (marshalIndent : PostData → String)
    (marshal : PostData → Except String String)
    (transport : HttpRequest → TransportResult) : Except String (Option String) :=
  match recovered with
  | none => .ok none
  | some e => do
      let err ← recoveredToError e
      let stack ← currentStack raw
      let post ← createPost c err stack now hostRes
      pure (Submit c post marshalIndent marshal transport).err

/-! ### Concrete example values used by the witnesses -/

/-- A Client as produced by `New("app", "key")` with uuid "uuid-1". -/
def clientBase : Client :=
  (New "app" "key" "uuid-1").toOption.getD clientDefault

/-- The base client with silent mode switched on via the chainable setter. -/
def clientSilent : Client :=
  applySetter (.setSilent true) clientBase

/-- The base client with a grouping-key callback returning "k". -/
def clientGrouping : Client :=
  applySetter (.setCustomGroupingKeyFunction (some fun _ _ => "k")) clientBase

/-- The base client with a grouping-key callback returning the empty string. -/
def clientGroupingEmpty : Client :=
  applySetter (.setCustomGroupingKeyFunction (some fun _ _ => "")) clientBase

/-- An example payload used to exercise the delivery engine. -/
def postExample : PostData :=
  { OccuredOn := "2026-01-01T00:00:00Z"
    Details := { MachineName := "m", Version := "", Error := { Message := "boom", StackTrace := [] }
                 Tags := [], UserCustomData := .null, Request := emptyRequestData
                 User := ⟨""⟩, Context := ⟨"uuid-1"⟩
                 Client := ⟨"raygun4go", packageVersion, "https://github.com/MindscapeHQ/raygun4go"⟩
                 GroupingKey := none } }

/-- The payload `newPostData` assembles for `clientBase.context`, the
error "boom", an empty stack, timestamp "now" and hostname "host". -/
def basePostExample : PostData :=
  { OccuredOn := "now"
    Details := { MachineName := "host", Version := "", Error := { Message := "boom", StackTrace := [] }
                 Tags := [], UserCustomData := .null, Request := emptyRequestData
                 User := ⟨""⟩, Context := ⟨"uuid-1"⟩
                 Client := ⟨"raygun4go", packageVersion, "https://github.com/MindscapeHQ/raygun4go"⟩
                 GroupingKey := none } }

/-- A raw runtime stack text with three frame pairs, as `runtime.Stack`
would produce for a call chain of depth three. -/
def rawStackExample : String :=
  "goroutine 1 [running]:\na.b()\n\tf:1\nc.d()\n\tg:2\ne.f()\n\th:3\n"

/-! ### Helper lemmas -/

lemma string_length_eq_zero (s : String) : s.length = 0 ↔ s = "" := by
  cases s with
  | mk data => simp [String.length, String.ext_iff]

lemma splitCharAux_ne_nil (sep : Char) (xs : List Char) : splitCharAux sep xs ≠ [] := by
  induction xs with
  | nil => simp [splitCharAux]
  | cons c rest ih =>
      simp only [splitCharAux]
      by_cases hc : c = sep
      · simp [hc]
      · simp only [hc, if_false]
        cases h : splitCharAux sep rest with
        | nil => exact absurd h ih
        | cons g gs => simp

lemma splitCharAux_no_sep (sep : Char) (xs : List Char) (h : ∀ c ∈ xs, c ≠ sep) :
    splitCharAux sep xs = [xs] := by
  induction xs with
  | nil => rfl
  | cons c rest ih =>
      have hc : c ≠ sep := h c (by simp)
      have hrest : splitCharAux sep rest = [rest] := ih (fun d hd => h d (by simp [hd]))
      simp only [splitCharAux, hc, if_false, hrest]

lemma splitCharAux_append_sep (sep : Char) (xs ys : List Char) (h : ∀ c ∈ xs, c ≠ sep) :
    splitCharAux sep (xs ++ sep :: ys) = xs :: splitCharAux sep ys := by
  induction xs with
  | nil => simp [splitCharAux]
  | cons c rest ih =>
      have hc : c ≠ sep := h c (by simp)
      have hrest := ih (fun d hd => h d (by simp [hd]))
      simp only [List.cons_append, splitCharAux, hc, if_false]
      rw [List.append_eq, hrest]

lemma goSplit_join_newline (L : List String) (hL : L ≠ [])
    (h : ∀ s ∈ L, '\n' ∉ s.data) : goSplit (joinSep "\n" L) '\n' = L := by
  induction L with
  | nil => cases hL rfl
  | cons s rest ih =>
      cases rest with
      | nil =>
          show goSplit s '\n' = [s]
          unfold goSplit
          rw [splitCharAux_no_sep _ _ (fun c hc heq => h s (by simp) (by rw [← heq]; exact hc))]
          simp
      | cons t rest2 =>
          show goSplit (s ++ "\n" ++ joinSep "\n" (t :: rest2)) '\n' = s :: t :: rest2
          unfold goSplit
          have hdata : (s ++ "\n" ++ joinSep "\n" (t :: rest2)).data
              = s.data ++ '\n' :: (joinSep "\n" (t :: rest2)).data := by
            simp [String.data_append]
          rw [hdata, splitCharAux_append_sep _ _ _
            (fun c hc heq => h s (by simp) (by rw [← heq]; exact hc))]
          have := ih (by simp) (fun u hu => h u (by simp [hu]))
          unfold goSplit at this
          simp only [List.map_cons, this]

lemma parseLoop_blanks (k : Nat) : ∀ (idx : Nat) (p m : String) (stack : StackTrace),
    parseLoop (List.replicate k "") idx p m stack = stack := by
  induction k with
  | zero => intro idx p m stack; rfl
  | succ n ih =>
      intro idx p m stack
      simp only [List.replicate, parseLoop]
      simp only [String.length, if_pos]
      exact ih _ _ _ _

lemma parseLoop_pairs (pairs : List (String × String)) (k : Nat) :
    ∀ (idx : Nat) (p m : String) (stack : StackTrace), idx % 2 = 0 →
    (∀ pr ∈ pairs, pr.1 ≠ "" ∧ pr.2 ≠ "") →
    parseLoop (pairLines pairs ++ List.replicate k "") idx p m stack
      = stack ++ pairs.map frameOfPair := by
  induction pairs with
  | nil =>
      intro idx p m stack _ _
      simp [pairLines, parseLoop_blanks]
  | cons pr rest ih =>
      intro idx p m stack hidx hwf
      obtain ⟨h1, h2⟩ := hwf pr (by simp)
      have hrest : ∀ q ∈ rest, q.1 ≠ "" ∧ q.2 ≠ "" := fun q hq => hwf q (by simp [hq])
      have hlines : pairLines (pr :: rest) ++ List.replicate k ""
          = pr.1 :: pr.2 :: (pairLines rest ++ List.replicate k "") := by
        simp [pairLines]
      rw [hlines]
      have hl1 : ¬ pr.1.length = 0 := fun hz => h1 ((string_length_eq_zero pr.1).mp hz)
      have hl2 : ¬ pr.2.length = 0 := fun hz => h2 ((string_length_eq_zero pr.2).mp hz)
      have hodd : ¬ (idx + 1) % 2 = 0 := by omega
      simp only [parseLoop, hl1, if_false, hidx, if_pos, hl2, hodd]
      rw [ih (idx + 1 + 1) _ _ _ (by omega) hrest]
      simp [frameOfPair]

lemma newDetailsData_groupingKey_none (c : ContextInformation) (err : GoError)
    (stack : StackTrace) (hostRes : Except String String) (d : DetailsData)
    (hd : newDetailsData c err stack hostRes = Except.ok d) :
    d.GroupingKey = none := by
  unfold newDetailsData at hd
  cases hr : newRequestData c.Request with
  | error e => rw [hr] at hd; simp [bind, Except.bind] at hd
  | ok req =>
      rw [hr] at hd
      simp only [bind, Except.bind, pure, Except.pure, Except.ok.injEq] at hd
      rw [← hd]

lemma newPostData_groupingKey_none (c : ContextInformation) (err : GoError)
    (stack : StackTrace) (now : String) (hostRes : Except String String)
    (base : PostData) (hbase : newPostData c err stack now hostRes = Except.ok base) :
    base.Details.GroupingKey = none := by
  unfold newPostData at hbase
  cases hd : newDetailsData c err stack hostRes with
  | error e => rw [hd] at hbase; simp [bind, Except.bind] at hbase
  | ok d =>
      rw [hd] at hbase
      simp only [bind, Except.bind, pure, Except.pure, Except.ok.injEq] at hbase
      rw [← hbase]
      exact newDetailsData_groupingKey_none c err stack hostRes d hd

/-! ### Claim theorems -/

/-- C1, counterexample.  The claim says blank lines are skipped without
consuming a pair slot, so the dump with one well-formed symbol/location
pair and one interior blank line should still yield one frame; in fact
`Parse` keys parity on the absolute line index, the blank line consumes
an index, the location line lands on an even index and is treated as a
symbol line, and zero frames result — while the same dump without the
blank line yields the one frame. -/
theorem parse_interior_blank_drops_frame :
    (parseTrace "goroutine 1 [running]:\nmain.foo()\n\t/home/u/main.go:42 +0x1\n").length = 1 ∧
    (parseTrace "goroutine 1 [running]:\nmain.foo()\n\n\t/home/u/main.go:42 +0x1\n").length = 0 :=
  ⟨by decide, by decide⟩

/-- C1, amended.  For every raw stack dump whose lines after the header
are exactly N well-formed (non-empty) symbol/location line pairs in
consecutive positions, followed only by trailing blank lines, `Parse`
adds exactly the N frames to the target stack, in input order.  (The
original claim also allowed blank lines interleaved between the pairs;
those consume a position-parity slot and break the alignment, see the
counterexample.) -/
theorem parse_adds_pair_frames (header : String) (pairs : List (String × String))
    (k : Nat) (stack : StackTrace)
    (hheader : '\n' ∉ header.data)
    (hwf : ∀ pr ∈ pairs, pr.1 ≠ "" ∧ '\n' ∉ pr.1.data ∧ pr.2 ≠ "" ∧ '\n' ∉ pr.2.data) :
    Parse (joinSep "\n" (header :: (pairLines pairs ++ List.replicate k ""))) stack
      = stack ++ pairs.map frameOfPair := by
  unfold Parse
  rw [goSplit_join_newline _ (by simp) ?hnl]
  case hnl =>
    intro s hs
    simp only [List.mem_cons, List.mem_append] at hs
    rcases hs with rfl | hs | hs
    · exact hheader
    · simp only [pairLines, List.mem_flatten, List.mem_map] at hs
      obtain ⟨l, ⟨q, hq, rfl⟩, hsl⟩ := hs
      obtain ⟨_, hn1, _, hn2⟩ := hwf q hq
      simp only [List.mem_cons, List.not_mem_nil, or_false] at hsl
      rcases hsl with h | h
      · rw [h]; exact hn1
      · rw [h]; exact hn2
    · rw [List.eq_of_mem_replicate hs]; simp
  simp only [List.drop_succ_cons, List.drop_zero]
  exact parseLoop_pairs pairs k 0 "" "" stack rfl
    (fun q hq => ⟨(hwf q hq).1, (hwf q hq).2.2.1⟩)

/-- C1, witness for the amended theorem: one pair after the usual
goroutine header, one trailing blank line, one frame added. -/
theorem parse_adds_pair_frames_witness :
    ('\n' ∉ "goroutine 1 [running]:".data) ∧
    (∀ pr ∈ ([("main.foo()", "\t/home/u/main.go:42 +0x1")] : List (String × String)),
        pr.1 ≠ "" ∧ '\n' ∉ pr.1.data ∧ pr.2 ≠ "" ∧ '\n' ∉ pr.2.data) ∧
    Parse (joinSep "\n" ("goroutine 1 [running]:" ::
        (pairLines [("main.foo()", "\t/home/u/main.go:42 +0x1")] ++ List.replicate 1 ""))) []
      = [] ++ List.map frameOfPair [("main.foo()", "\t/home/u/main.go:42 +0x1")] :=
  ⟨by decide, by decide,
   parse_adds_pair_frames "goroutine 1 [running]:"
     [("main.foo()", "\t/home/u/main.go:42 +0x1")] 1 [] (by decide) (by decide)⟩

/-- C2, code bug.  `HandleError` absorbs a recovered panic whose payload
is an error or a string and restores normal control flow (first three
conjuncts), but the unchecked type assertion `e.(string)` itself panics
on a payload of any other dynamic type — e.g. `panic(42)` — so the host
program still crashes, contrary to the claim and the package's own
documentation (last conjunct). -/
theorem handleError_nonstring_payload_panics :
    HandleError clientBase (some (.goString "boom")) rawStackExample "now" (.ok "host")
        (fun _ => "") (fun _ => Except.ok "body") (fun _ => .response 202)
      = Except.ok none ∧
    HandleError clientBase (some (.goError ⟨"boom"⟩)) rawStackExample "now" (.ok "host")
        (fun _ => "") (fun _ => Except.ok "body") (fun _ => .response 202)
      = Except.ok none ∧
    HandleError clientBase none rawStackExample "now" (.ok "host")
        (fun _ => "") (fun _ => Except.ok "body") (fun _ => .response 202)
      = Except.ok none ∧
    HandleError clientBase (some (.other "int")) rawStackExample "now" (.ok "host")
        (fun _ => "") (fun _ => Except.ok "body") (fun _ => .response 202)
      = Except.error "interface conversion: interface is int, not string" :=
  ⟨rfl, rfl, rfl, rfl⟩

/-- C3.  Parsing the example trace yields exactly one frame with
lineNumber 42, packageName "main", fileName "main.go" and methodName
"foo()". -/
theorem parse_example_scenario :
    parseTrace "goroutine 1 [running]:\nmain.foo()\n\t/home/u/main.go:42 +0x1\n"
      = [{ lineNumber := 42, packageName := "main", fileName := "main.go", methodName := "foo()" }] := by
  decide

/-- C4.  When the silent flag is set, `Submit` performs no transport
invocation and returns success, for every payload and every external
serializer and transport. -/
theorem submit_silent_no_network (c : Client) (post : PostData)
    (marshalIndent : PostData → String) (marshal : PostData → Except String String)
    (transport : HttpRequest → TransportResult) (h : c.silent = true) :
    (Submit c post marshalIndent marshal transport).networkCalls = [] ∧
    (Submit c post marshalIndent marshal transport).err = none := by
  simp [Submit, h]

/-- C4, witness: a silent client with a transport that would answer 500
still returns success without any network call. -/
theorem submit_silent_no_network_witness :
    clientSilent.silent = true ∧
    (Submit clientSilent postExample (fun _ => "") (fun _ => .ok "")
        (fun _ => .response 500)).networkCalls = [] ∧
    (Submit clientSilent postExample (fun _ => "") (fun _ => .ok "")
        (fun _ => .response 500)).err = none :=
  ⟨rfl,
   (submit_silent_no_network clientSilent postExample _ _ _ rfl).1,
   (submit_silent_no_network clientSilent postExample _ _ _ rfl).2⟩

/-- C5.  `New` fails exactly when appName or apiKey is empty; on any
pair of non-empty strings it returns a Client holding those values, the
freshly generated identifier, and all delivery flags off. -/
theorem New_requires_nonempty (a k u : String) :
    ((∃ msg, New a k u = Except.error msg) ↔ a = "" ∨ k = "") ∧
    (a ≠ "" → k ≠ "" →
      ∃ c, New a k u = Except.ok c ∧ c.appName = a ∧ c.apiKey = k ∧
        c.context.identifier = u ∧ c.silent = false ∧ c.logToStdOut = false ∧
        c.asynchronous = false) := by
  by_cases h : a = "" ∨ k = ""
  · constructor
    · simp [New, h]
    · intro ha hk
      rcases h with h | h
      · exact absurd h ha
      · exact absurd h hk
  · constructor
    · simp [New, h]
    · intro _ _
      refine ⟨{ appName := a, apiKey := k,
                context := { Request := none, Version := "", Tags := [],
                             CustomData := GoAny.null, User := "",
                             GetCustomGroupingKey := none, identifier := u },
                silent := false, logToStdOut := false, asynchronous := false },
              ?_, rfl, rfl, rfl, rfl, rfl, rfl⟩
      simp [New, h]

/-- C5, witness: `New` succeeds on ("app", "key") with the generated
identifier, and fails on an empty appName. -/
theorem New_requires_nonempty_witness :
    (∃ c, New "app" "key" "uuid-1" = Except.ok c ∧ c.appName = "app" ∧
      c.apiKey = "key" ∧ c.context.identifier = "uuid-1" ∧ c.silent = false ∧
      c.logToStdOut = false ∧ c.asynchronous = false) ∧
    (∃ msg, New "" "key" "uuid-1" = Except.error msg) :=
  ⟨((New_requires_nonempty "app" "key" "uuid-1").2
      (by decide) (by decide)).imp
      (fun c hc => ⟨hc.1, hc.2.1, hc.2.2.1, hc.2.2.2.1, hc.2.2.2.2.1,
        hc.2.2.2.2.2.1, hc.2.2.2.2.2.2⟩),
   (New_requires_nonempty "" "key" "uuid-1").1.mpr (Or.inl rfl)⟩

/-- C6.  In non-silent synchronous delivery, when serialization succeeds
and the transport answers with a status code, the submission succeeds
exactly on 202, and every other status yields an error whose message
carries the numeric status code. -/
theorem submit_success_iff_202 (c : Client) (post : PostData)
    (marshalIndent : PostData → String) (marshal : PostData → Except String String)
    (transport : HttpRequest → TransportResult) (body : String) (status : Nat)
    (hs : c.silent = false) (ha : c.asynchronous = false)
    (hm : marshal post = Except.ok body)
    (ht : transport { method := "POST", url := raygunEndpoint ++ "/entries",
                      headers := [("X-ApiKey", c.apiKey)], body := body }
          = TransportResult.response status) :
    ((Submit c post marshalIndent marshal transport).err = none ↔ status = 202) ∧
    (status ≠ 202 →
      (Submit c post marshalIndent marshal transport).err
        = some ("Unexpected answer from Raygun " ++ toString status)) := by
  constructor
  · by_cases h : status = 202 <;>
      simp [Submit, hs, ha, submitCore, hm, ht, h]
  · intro h
    simp [Submit, hs, ha, submitCore, hm, ht, h]

/-- C6, witness: status 500 yields the delivery error carrying "500";
status 202 yields success. -/
theorem submit_success_iff_202_witness :
    ((Submit clientBase postExample (fun _ => "") (fun _ => Except.ok "body")
        (fun _ => .response 500)).err
      = some ("Unexpected answer from Raygun " ++ toString 500)) ∧
    ((Submit clientBase postExample (fun _ => "") (fun _ => Except.ok "body")
        (fun _ => .response 202)).err = none) :=
  ⟨(submit_success_iff_202 clientBase postExample (fun _ => "")
      (fun _ => Except.ok "body") (fun _ => .response 500) "body" 500
      rfl rfl rfl rfl).2 (by decide),
   (submit_success_iff_202 clientBase postExample (fun _ => "")
      (fun _ => Except.ok "body") (fun _ => .response 202) "body" 202
      rfl rfl rfl rfl).1.mpr rfl⟩

/-- C7.  The payload `createPost` assembles starts with no grouping key;
with no callback configured the key stays absent; with a configured
callback, `createPost` hands it the error and the assembled payload, and
a non-empty return value is injected into `Details.GroupingKey` while an
empty return leaves it absent. -/
theorem createPost_groupingKey (c : Client) (err : GoError) (stack : StackTrace)
    (now : String) (hostRes : Except String String) (base : PostData)
    (hbase : newPostData c.context err stack now hostRes = Except.ok base) :
    base.Details.GroupingKey = none ∧
    (c.context.GetCustomGroupingKey = none →
      createPost c err stack now hostRes = Except.ok base) ∧
    (∀ getKey, c.context.GetCustomGroupingKey = some getKey →
      (getKey err base ≠ "" →
        createPost c err stack now hostRes =
          Except.ok { base with
            Details := { base.Details with GroupingKey := some (getKey err base) } }) ∧
      (getKey err base = "" →
        createPost c err stack now hostRes = Except.ok base)) := by
  refine ⟨newPostData_groupingKey_none c.context err stack now hostRes base hbase, ?_, ?_⟩
  · intro hnone
    unfold createPost
    rw [hbase]
    simp [bind, Except.bind, hnone, pure, Except.pure]
  · intro getKey hsome
    constructor
    · intro hne
      unfold createPost
      rw [hbase]
      simp [bind, Except.bind, hsome, pure, Except.pure, hne]
    · intro heq
      unfold createPost
      rw [hbase]
      simp [bind, Except.bind, hsome, pure, Except.pure, heq]

/-- C7, witness: a callback returning "k" sets the grouping key to "k",
a callback returning "" and an absent callback both leave it absent. -/
theorem createPost_groupingKey_witness :
    (newPostData clientGrouping.context ⟨"boom"⟩ [] "now" (.ok "host")
        = Except.ok basePostExample) ∧
    createPost clientGrouping ⟨"boom"⟩ [] "now" (.ok "host")
      = Except.ok { basePostExample with
          Details := { basePostExample.Details with GroupingKey := some "k" } } ∧
    createPost clientGroupingEmpty ⟨"boom"⟩ [] "now" (.ok "host")
      = Except.ok basePostExample ∧
    createPost clientBase ⟨"boom"⟩ [] "now" (.ok "host") = Except.ok basePostExample :=
  ⟨rfl,
   ((createPost_groupingKey clientGrouping ⟨"boom"⟩ [] "now" (.ok "host")
       basePostExample rfl).2.2 (fun _ _ => "k") rfl).1 (by decide),
   ((createPost_groupingKey clientGroupingEmpty ⟨"boom"⟩ [] "now" (.ok "host")
       basePostExample rfl).2.2 (fun _ _ => "") rfl).2 rfl,
   (createPost_groupingKey clientBase ⟨"boom"⟩ [] "now" (.ok "host")
       basePostExample rfl).2.1 rfl⟩

/-- C8.  In the heap model of Go pointers, cloning the Client at address
`a` and then applying any chainable setter to the clone leaves the
original struct untouched, and applying the setter to the original
leaves the clone untouched. -/
theorem clone_setter_isolation (heap : List Client) (a : Nat) (s : Setter)
    (ha : a < heap.length) :
    (setterOp (cloneOp heap a).1 (cloneOp heap a).2 s)[a]? = heap[a]? ∧
    (setterOp (cloneOp heap a).1 a s)[(cloneOp heap a).2]?
      = (cloneOp heap a).1[(cloneOp heap a).2]? := by
  have hab : a ≠ heap.length := Nat.ne_of_lt ha
  constructor
  · simp only [setterOp, cloneOp]
    rw [List.getElem?_set_ne (Ne.symm hab), List.getElem?_append]
    simp [ha]
  · simp only [setterOp, cloneOp]
    rw [List.getElem?_set_ne hab]

/-- C8, witness: one-client heap, clone it, set the version on either
copy; the other copy is unchanged. -/
theorem clone_setter_isolation_witness :
    0 < ([clientBase] : List Client).length ∧
    (setterOp (cloneOp [clientBase] 0).1 (cloneOp [clientBase] 0).2
        (.setVersion "v2"))[0]? = ([clientBase] : List Client)[0]? ∧
    (setterOp (cloneOp [clientBase] 0).1 0 (.setVersion "v2"))[(cloneOp [clientBase] 0).2]?
      = (cloneOp [clientBase] 0).1[(cloneOp [clientBase] 0).2]? :=
  ⟨by decide,
   (clone_setter_isolation [clientBase] 0 (.setVersion "v2") (by decide)).1,
   (clone_setter_isolation [clientBase] 0 (.setVersion "v2") (by decide)).2⟩

/-- C9.  `currentStack` returns the parsed frames of the captured raw
trace with exactly the first 3 removed when at least 3 frames were
parsed, and panics (never returns a stack) when fewer than 3 were. -/
theorem currentStack_drops_three (raw : String) :
    (3 ≤ (parseTrace raw).length →
        currentStack raw = Except.ok ((parseTrace raw).drop 3)) ∧
    ((parseTrace raw).length < 3 →
        ∀ frames : StackTrace, currentStack raw ≠ Except.ok frames) := by
  constructor
  · intro h
    simp [currentStack, goSliceFrom, h]
  · intro h frames
    simp [currentStack, goSliceFrom, Nat.not_le.mpr h]

/-- C9, witness: a three-frame trace yields the empty trimmed stack, a
one-frame trace makes `currentStack` panic. -/
theorem currentStack_drops_three_witness :
    (3 ≤ (parseTrace "goroutine 1 [running]:\na.b()\n\tf:1\nc.d()\n\tg:2\ne.f()\n\th:3\n").length ∧
      currentStack "goroutine 1 [running]:\na.b()\n\tf:1\nc.d()\n\tg:2\ne.f()\n\th:3\n" =
        Except.ok ((parseTrace "goroutine 1 [running]:\na.b()\n\tf:1\nc.d()\n\tg:2\ne.f()\n\th:3\n").drop 3)) ∧
    ((parseTrace "goroutine 1 [running]:\na.b()\n\tf:1\n").length < 3 ∧
      currentStack "goroutine 1 [running]:\na.b()\n\tf:1\n" ≠ Except.ok []) :=
  ⟨⟨by decide,
    (currentStack_drops_three "goroutine 1 [running]:\na.b()\n\tf:1\nc.d()\n\tg:2\ne.f()\n\th:3\n").1 (by decide)⟩,
   ⟨by decide,
    (currentStack_drops_three "goroutine 1 [running]:\na.b()\n\tf:1\n").2 (by decide) []⟩⟩

/-- C10.  `arrayMapToStringMap` succeeds exactly when every value slice
is non-empty, and then maps each key to the single value for a
one-element slice and to the values joined by "; " in brackets for a
longer slice; any empty slice makes it panic through the unguarded
`v[0]`. -/
theorem arrayMapToStringMap_total_iff (m : List (String × List String)) :
    arrayMapToStringMap m =
      if m.all (fun kv => !kv.2.isEmpty) then
        Except.ok (m.map fun kv =>
          (kv.1, if kv.2.length > 1 then "[" ++ joinSep "; " kv.2 ++ "]" else kv.2.headD ""))
      else Except.error "runtime error: index out of range" := by
  induction m with
  | nil => rfl
  | cons kv rest ih =>
      obtain ⟨k, v⟩ := kv
      cases v with
      | nil => simp [arrayMapToStringMap, bind, Except.bind]
      | cons x xs =>
          by_cases hall : rest.all (fun kv => !kv.2.isEmpty)
          · simp only [arrayMapToStringMap, ih, hall, if_true, List.all_cons,
              List.isEmpty_cons, Bool.not_false, Bool.true_and, bind, Except.bind,
              pure, Except.pure]
            split <;> rename_i h <;>
              simp only [List.map_cons, List.length_cons] at h ⊢
            · rw [if_pos h]
            · rw [if_neg h]; rfl
          · simp [arrayMapToStringMap, ih, hall, bind, Except.bind, pure, Except.pure]

end Raygun4go
